import Mathlib

/-!
Verification of the weighted grade calculator of `school_app.py`.

The calculator `calculate_average_v3(grades, categories)` is a pure function;
we embed it shallowly.  Python floats are idealised as rationals `ℚ` (the spec
states all properties "within floating-point tolerance", i.e. about the ideal
real arithmetic, which over these finite sums and divisions coincides with `ℚ`).
A grade row carries a nullable grade, a nullable category id and a period;
`None == cat['id']` is `False` in Python, so a row matches a category exactly
when its `category_id` is `some` of the category's id.  The Python `dict`
`cat_averages` is embedded as an insertion-ordered association list where
inserting an existing key overwrites the value in place.
-/

/-- One grade row as fetched by the dashboards:
`SELECT g.grade, a.period, a.category_id ...`.  `grade` is nullable,
`category_id` is nullable, `period` is an integer. -/
structure GradeRecord where
  grade : Option ℚ
  category_id : Option ℤ
  period : ℤ
  deriving Repr, DecidableEq

/-- One grading category: `{'id': 1, 'name': 'TPs', 'weight': 50}`. -/
structure GradingCategory where
  id : ℤ
  name : String
  weight : ℚ
  deriving Repr, DecidableEq

/-- The Python `dict` insert: if the key is present, the value is overwritten
in place (every entry with that key, though keys are unique in any dict built
by inserts); otherwise the pair is appended at the end. -/
def dictInsert (d : List (String × Option ℚ)) (k : String) (v : Option ℚ) :
    List (String × Option ℚ) :=
  if d.any (fun p => p.1 = k) then
    d.map (fun p => if p.1 = k then (k, v) else p)
  else
    d ++ [(k, v)]

/-- `[g['grade'] for g in grades if g['category_id'] == cat['id'] and g['grade'] is not None]`:
the non-null grades of the rows matching category `cat` (a row with null
`category_id` matches nothing, since `None == id` is `False` in Python). -/
def catGrades (grades : List GradeRecord) (cat : GradingCategory) : List ℚ :=
  grades.filterMap (fun g => if g.category_id = some cat.id then g.grade else none)

/-- `sum(c_grades) / len(c_grades)` for the rows of category `cat`. -/
def catAvg (grades : List GradeRecord) (cat : GradingCategory) : ℚ :=
  (catGrades grades cat).sum / ((catGrades grades cat).length : ℚ)

/-- The body of the `for cat in categories` loop of `calculate_average_v3`:
state is `(cat_averages, calculated_score, total_weight_used)`. -/
def calcStep (grades : List GradeRecord)
    (acc : List (String × Option ℚ) × ℚ × ℚ) (cat : GradingCategory) :
    List (String × Option ℚ) × ℚ × ℚ :=
  let c_grades := catGrades grades cat
  if c_grades.isEmpty then
    (dictInsert acc.1 cat.name none, acc.2.1, acc.2.2)
  else
    let avg := c_grades.sum / (c_grades.length : ℚ)
    (dictInsert acc.1 cat.name (some avg),
     acc.2.1 + avg * cat.weight,
     acc.2.2 + cat.weight)

/-- `calculate_average_v3(grades, categories)` of `school_app.py`:
weighted average over custom category weights, with a plain-mean fallback when
no categories are defined.  Returns `(final_score, cat_averages)`. -/
def calculate_average_v3 (grades : List GradeRecord)
    (categories : List GradingCategory) : ℚ × List (String × Option ℚ) :=
  if categories.isEmpty then
    let valid_grades := grades.filterMap (fun g => g.grade)
    (if valid_grades.isEmpty then 0
     else valid_grades.sum / (valid_grades.length : ℚ), [])
  else
    let r := categories.foldl (calcStep grades) ([], 0, 0)
    ((if 0 < r.2.2 then r.2.1 / r.2.2 else 0), r.1)

/-- The value recorded for a category: `none` when it has no matching non-null
grade, otherwise `some` of its arithmetic mean. -/
def catValue (grades : List GradeRecord) (cat : GradingCategory) : Option ℚ :=
  if (catGrades grades cat).isEmpty then none else some (catAvg grades cat)

/-- The categories that contribute to score and weight: those with at least one
matching non-null grade. -/
def activeCats (grades : List GradeRecord) (cats : List GradingCategory) :
    List GradingCategory :=
  cats.filter (fun c => !(catGrades grades c).isEmpty)

/-- `calculated_score` after the loop: sum of `avg * weight` over active
categories. -/
def activeScore (grades : List GradeRecord) (cats : List GradingCategory) : ℚ :=
  ((activeCats grades cats).map (fun c => catAvg grades c * c.weight)).sum

/-- `total_weight_used` after the loop: sum of the weights of the active
categories. -/
def activeWeight (grades : List GradeRecord) (cats : List GradingCategory) : ℚ :=
  ((activeCats grades cats).map (fun c => c.weight)).sum

/-- The `cat_averages` dict after the loop, as a fold of dict inserts. -/
def buildMap (grades : List GradeRecord) (cats : List GradingCategory) :
    List (String × Option ℚ) :=
  cats.foldl (fun d c => dictInsert d c.name (catValue grades c)) []

/-- The last category of the list carrying a given name, if any: this is the
category whose value survives in the Python dict after all inserts. -/
def lastNamed : List GradingCategory → String → Option GradingCategory
  | [], _ => none
  | c :: cs, q =>
    match lastNamed cs q with
    | some c2 => some c2
    | none => if c.name = q then some c else none

theorem lookup_pair_cons (a q : String) (b : Option ℚ)
    (t : List (String × Option ℚ)) :
    List.lookup q ((a, b) :: t) = if a = q then some b else List.lookup q t := by
  by_cases h : a = q
  · subst h
    simp
  · rw [List.lookup_cons]
    have hb : (q == a) = false := beq_eq_false_iff_ne.mpr (Ne.symm h)
    simp [hb, h]

theorem lookup_map_overwrite (d : List (String × Option ℚ)) (k q : String)
    (v : Option ℚ) :
    List.lookup q (d.map (fun p => if p.1 = k then (k, v) else p)) =
      if k = q then (if d.any (fun p => p.1 = k) then some v else none)
      else List.lookup q d := by
  induction d with
  | nil => by_cases hq : k = q <;> simp [hq]
  | cons p t ih =>
    obtain ⟨a, b⟩ := p
    by_cases hp : a = k
    · rw [List.map_cons]
      simp only [if_pos hp]
      rw [lookup_pair_cons, ih, lookup_pair_cons]
      by_cases hq : k = q
      · simp [hq, hp]
      · have haq : a ≠ q := fun hc => hq (hp ▸ hc)
        simp [hq, haq]
    · rw [List.map_cons]
      simp only [if_neg hp]
      rw [lookup_pair_cons, ih, lookup_pair_cons]
      by_cases hq : k = q
      · have haq : a ≠ q := fun hc => hp (hc.trans hq.symm)
        simp [hq, haq, hp, List.any_cons]
        rw [decide_eq_false hp, Bool.false_or]
      · by_cases haq : a = q <;> simp [hq, haq, hp]

theorem lookup_dictInsert (d : List (String × Option ℚ)) (k q : String)
    (v : Option ℚ) :
    List.lookup q (dictInsert d k v) =
      if k = q then some v else List.lookup q d := by
  unfold dictInsert
  by_cases hany : d.any (fun p => p.1 = k)
  · rw [if_pos hany, lookup_map_overwrite, hany]
    by_cases hq : k = q <;> simp [hq]
  · rw [if_neg hany, List.lookup_append]
    have hsingle : List.lookup q [(k, v)] = if k = q then some v else none := by
      rw [lookup_pair_cons]
      by_cases hq : k = q <;> simp [hq]
    by_cases hq : k = q
    · have hd : List.lookup q d = none := by
        rw [List.lookup_eq_none_iff]
        intro p hp
        have : ¬(p.1 = k) := by
          intro hc
          exact hany (List.any_eq_true.mpr ⟨p, hp, by simp [hc]⟩)
        exact bne_iff_ne.mpr (fun hc => this (hq ▸ hc.symm))
      simp [hd, hsingle, hq]
    · simp [hsingle, hq]

theorem lookup_foldl_insert (grades : List GradeRecord)
    (cats : List GradingCategory) (d : List (String × Option ℚ)) (q : String) :
    List.lookup q
        (cats.foldl (fun d2 c => dictInsert d2 c.name (catValue grades c)) d) =
      match lastNamed cats q with
      | some c => some (catValue grades c)
      | none => List.lookup q d := by
  induction cats generalizing d with
  | nil => simp [lastNamed]
  | cons c cs ih =>
    rw [List.foldl_cons, ih]
    cases hcs : lastNamed cs q with
    | some c2 => simp [lastNamed, hcs]
    | none =>
      rw [lookup_dictInsert]
      by_cases hq : c.name = q <;> simp [lastNamed, hcs, hq]

theorem lookup_buildMap (grades : List GradeRecord)
    (cats : List GradingCategory) (q : String) :
    List.lookup q (buildMap grades cats) =
      match lastNamed cats q with
      | some c => some (catValue grades c)
      | none => none := by
  rw [buildMap, lookup_foldl_insert]
  cases lastNamed cats q <;> simp [List.lookup]

theorem lastNamed_mem {cats : List GradingCategory} {q : String}
    {c : GradingCategory} (h : lastNamed cats q = some c) :
    c ∈ cats ∧ c.name = q := by
  induction cats with
  | nil => simp [lastNamed] at h
  | cons c0 cs ih =>
    rw [lastNamed] at h
    cases hcs : lastNamed cs q with
    | some c2 =>
      rw [hcs] at h
      obtain ⟨h1, h2⟩ := ih (hcs.trans h)
      exact ⟨by simp [h1], h2⟩
    | none =>
      rw [hcs] at h
      by_cases hq : c0.name = q
      · rw [if_pos hq] at h
        cases h
        exact ⟨by simp, hq⟩
      · rw [if_neg hq] at h
        cases h

theorem lastNamed_eq_none_iff {cats : List GradingCategory} {q : String} :
    lastNamed cats q = none ↔ ∀ c ∈ cats, c.name ≠ q := by
  induction cats with
  | nil => simp [lastNamed]
  | cons c0 cs ih =>
    rw [lastNamed]
    cases hcs : lastNamed cs q with
    | some c2 =>
      simp only [reduceCtorEq, false_iff]
      intro hall
      obtain ⟨h1, h2⟩ := lastNamed_mem hcs
      exact hall c2 (by simp [h1]) h2
    | none =>
      by_cases hq : c0.name = q
      · simp [hq]
      · simp only [if_neg hq]
        constructor
        · intro _ c hc
          rcases List.mem_cons.mp hc with h | h
          · exact h ▸ hq
          · exact ih.mp hcs c h
        · intro _
          trivial

theorem foldl_calcStep (grades : List GradeRecord) (cats : List GradingCategory)
    (d : List (String × Option ℚ)) (s w : ℚ) :
    cats.foldl (calcStep grades) (d, s, w) =
      (cats.foldl (fun d2 c => dictInsert d2 c.name (catValue grades c)) d,
       s + activeScore grades cats, w + activeWeight grades cats) := by
  induction cats generalizing d s w with
  | nil => simp [activeScore, activeWeight, activeCats]
  | cons c cs ih =>
    rw [List.foldl_cons, List.foldl_cons]
    cases h : (catGrades grades c).isEmpty with
    | true =>
      have hstep : calcStep grades (d, s, w) c = (dictInsert d c.name none, s, w) := by
        simp [calcStep, h]
      have hval : catValue grades c = none := by simp [catValue, h]
      have hact : activeCats grades (c :: cs) = activeCats grades cs := by
        simp [activeCats, List.filter_cons, h]
      rw [hstep, ih]
      simp [activeScore, activeWeight, hact, hval]
    | false =>
      have hstep : calcStep grades (d, s, w) c =
          (dictInsert d c.name (some (catAvg grades c)),
           s + catAvg grades c * c.weight, w + c.weight) := by
        simp [calcStep, h, catAvg]
      have hval : catValue grades c = some (catAvg grades c) := by
        simp [catValue, h]
      have hact : activeCats grades (c :: cs) = c :: activeCats grades cs := by
        simp [activeCats, List.filter_cons, h]
      rw [hstep, ih]
      simp [activeScore, activeWeight, hact, hval, add_assoc]

theorem calc_v3_eq (grades : List GradeRecord) {cats : List GradingCategory}
    (h : cats ≠ []) :
    calculate_average_v3 grades cats =
      ((if 0 < activeWeight grades cats
        then activeScore grades cats / activeWeight grades cats else 0),
       buildMap grades cats) := by
  unfold calculate_average_v3
  have hne : cats.isEmpty = false := by
    cases cats with
    | nil => exact absurd rfl h
    | cons a l => rfl
  rw [hne]
  simp only [Bool.false_eq_true, if_false, foldl_calcStep, zero_add, buildMap]

theorem catGrades_append (g1 g2 : List GradeRecord) (cat : GradingCategory) :
    catGrades (g1 ++ g2) cat = catGrades g1 cat ++ catGrades g2 cat := by
  simp [catGrades]

theorem foldl_calcStep_congr (g1 g2 : List GradeRecord)
    (cats : List GradingCategory)
    (h : ∀ c ∈ cats, catGrades g1 c = catGrades g2 c)
    (acc : List (String × Option ℚ) × ℚ × ℚ) :
    cats.foldl (calcStep g1) acc = cats.foldl (calcStep g2) acc := by
  induction cats generalizing acc with
  | nil => rfl
  | cons c cs ih =>
    have hc : calcStep g1 acc c = calcStep g2 acc c := by
      simp [calcStep, h c (by simp)]
    rw [List.foldl_cons, List.foldl_cons, hc,
      ih (fun c2 hc2 => h c2 (by simp [hc2]))]

theorem calc_v3_congr (g1 g2 : List GradeRecord) {cats : List GradingCategory}
    (hne : cats ≠ []) (h : ∀ c ∈ cats, catGrades g1 c = catGrades g2 c) :
    calculate_average_v3 g1 cats = calculate_average_v3 g2 cats := by
  unfold calculate_average_v3
  have hb : cats.isEmpty = false := by
    cases cats with
    | nil => exact absurd rfl hne
    | cons a l => rfl
  rw [hb]
  simp only [Bool.false_eq_true, if_false]
  rw [foldl_calcStep_congr g1 g2 cats h]

theorem sum_le_mul_length {l : List ℚ} {b : ℚ} (h : ∀ x ∈ l, x ≤ b) :
    l.sum ≤ (l.length : ℚ) * b := by
  induction l with
  | nil => simp
  | cons x t ih =>
    have hx := h x (by simp)
    have ht := ih (fun y hy => h y (by simp [hy]))
    simp only [List.sum_cons, List.length_cons]
    push_cast
    nlinarith [ht, hx]

theorem mean_bounds {l : List ℚ} (hne : l ≠ []) (h : ∀ x ∈ l, 0 ≤ x ∧ x ≤ 10) :
    0 ≤ l.sum / (l.length : ℚ) ∧ l.sum / (l.length : ℚ) ≤ 10 := by
  have hlen : 0 < (l.length : ℚ) := by
    have := List.length_pos.mpr hne
    exact_mod_cast this
  constructor
  · exact div_nonneg (List.sum_nonneg (fun x hx => (h x hx).1)) hlen.le
  · rw [div_le_iff hlen]
    calc l.sum ≤ (l.length : ℚ) * 10 := sum_le_mul_length (fun x hx => (h x hx).2)
    _ = 10 * (l.length : ℚ) := by ring

theorem mem_catGrades {grades : List GradeRecord} {cat : GradingCategory}
    {x : ℚ} (hx : x ∈ catGrades grades cat) : ∃ g ∈ grades, g.grade = some x := by
  rw [catGrades, List.mem_filterMap] at hx
  obtain ⟨g, hg, hfg⟩ := hx
  by_cases hc : g.category_id = some cat.id
  · rw [if_pos hc] at hfg
    exact ⟨g, hg, hfg⟩
  · rw [if_neg hc] at hfg
    cases hfg

theorem weighted_sum_bounds (grades : List GradeRecord)
    (l : List GradingCategory) (hw : ∀ c ∈ l, 0 ≤ c.weight)
    (ha : ∀ c ∈ l, 0 ≤ catAvg grades c ∧ catAvg grades c ≤ 10) :
    0 ≤ (l.map (fun c => catAvg grades c * c.weight)).sum ∧
      (l.map (fun c => catAvg grades c * c.weight)).sum ≤
        10 * (l.map (fun c => c.weight)).sum := by
  induction l with
  | nil => simp
  | cons c t ih =>
    obtain ⟨ih1, ih2⟩ :=
      ih (fun x hx => hw x (by simp [hx])) (fun x hx => ha x (by simp [hx]))
    have hwc := hw c (by simp)
    obtain ⟨ha1, ha2⟩ := ha c (by simp)
    simp only [List.map_cons, List.sum_cons]
    constructor
    · have hnn : 0 ≤ catAvg grades c * c.weight := mul_nonneg ha1 hwc
      linarith
    · have hcc : catAvg grades c * c.weight ≤ 10 * c.weight := by nlinarith
      nlinarith [ih2]

theorem mem_dictInsert {d : List (String × Option ℚ)} {k : String}
    {v : Option ℚ} {p : String × Option ℚ} (hp : p ∈ dictInsert d k v) :
    p ∈ d ∨ p = (k, v) := by
  unfold dictInsert at hp
  by_cases hany : d.any (fun p2 => p2.1 = k)
  · rw [if_pos hany, List.mem_map] at hp
    obtain ⟨p2, hp2, hfp⟩ := hp
    by_cases hc : p2.1 = k
    · rw [if_pos hc] at hfp
      exact Or.inr hfp.symm
    · rw [if_neg hc] at hfp
      exact Or.inl (hfp ▸ hp2)
  · rw [if_neg hany, List.mem_append] at hp
    rcases hp with h | h
    · exact Or.inl h
    · simp only [List.mem_singleton] at h
      exact Or.inr h

theorem mem_foldl_insert {grades : List GradeRecord}
    {cats : List GradingCategory} {d : List (String × Option ℚ)}
    {p : String × Option ℚ}
    (hp : p ∈ cats.foldl (fun d2 c => dictInsert d2 c.name (catValue grades c)) d) :
    p ∈ d ∨ ∃ c ∈ cats, p = (c.name, catValue grades c) := by
  induction cats generalizing d with
  | nil => exact Or.inl hp
  | cons c cs ih =>
    rw [List.foldl_cons] at hp
    rcases ih hp with h | ⟨c2, hc2, he⟩
    · rcases mem_dictInsert h with h2 | h2
      · exact Or.inl h2
      · exact Or.inr ⟨c, by simp, h2⟩
    · exact Or.inr ⟨c2, by simp [hc2], he⟩

/-- Division that fails (like Python raising ZeroDivisionError) on a zero
divisor, used to show the source's divisions are guarded. -/
def qdiv (a b : ℚ) : Option ℚ :=
  if b = 0 then none else some (a / b)

/-- `calcStep` with the division checked: `none` models an uncaught
`ZeroDivisionError`. -/
def calcStepChecked (grades : List GradeRecord)
    (acc : Option (List (String × Option ℚ) × ℚ × ℚ)) (cat : GradingCategory) :
    Option (List (String × Option ℚ) × ℚ × ℚ) :=
  match acc with
  | none => none
  | some (d, s, w) =>
    let c_grades := catGrades grades cat
    if c_grades.isEmpty then
      some (dictInsert d cat.name none, s, w)
    else
      match qdiv c_grades.sum (c_grades.length : ℚ) with
      | none => none
      | some avg =>
        some (dictInsert d cat.name (some avg), s + avg * cat.weight, w + cat.weight)

/-- `calculate_average_v3` with every division checked: returns `none` exactly
when some division in the source would divide by zero. -/
def calculate_average_v3_checked (grades : List GradeRecord)
    (categories : List GradingCategory) :
    Option (ℚ × List (String × Option ℚ)) :=
  if categories.isEmpty then
    let valid_grades := grades.filterMap (fun g => g.grade)
    if valid_grades.isEmpty then some (0, [])
    else (qdiv valid_grades.sum (valid_grades.length : ℚ)).map (fun m => (m, []))
  else
    match categories.foldl (calcStepChecked grades) (some ([], 0, 0)) with
    | none => none
    | some (d, s, w) =>
      if 0 < w then (qdiv s w).map (fun f => (f, d)) else some (0, d)

/-- `round(x, 2)` idealised over `ℚ`: round to an integer, ties to even. -/
def roundHalfEven (x : ℚ) : ℤ :=
  let f : ℤ := Int.floor x
  let r : ℚ := x - (f : ℚ)
  if r < 1/2 then f
  else if 1/2 < r then f + 1
  else if f % 2 = 0 then f else f + 1

/-- `round(x, 2)`: two decimal places, ties to even. -/
def roundq2 (x : ℚ) : ℚ :=
  (roundHalfEven (x * 100) : ℚ) / 100

/-- `p_avgs` of the year-final branch of the dashboards: one per-period final
score per period `1..num_p`, periods with no grade rows skipped entirely. -/
def period_final_scores (raw : List GradeRecord) (cats : List GradingCategory)
    (num_p : ℕ) : List ℚ :=
  (List.range num_p).filterMap (fun (i : ℕ) =>
    if (raw.filter (fun g => g.period = (i : ℤ) + 1)).isEmpty then none
    else some (calculate_average_v3
      (raw.filter (fun g => g.period = (i : ℤ) + 1)) cats).1)

/-- The year-final figure before display rounding:
`sum(p_avgs)/len(p_avgs) if p_avgs else 0.00`. -/
def year_final (raw : List GradeRecord) (cats : List GradingCategory)
    (num_p : ℕ) : ℚ :=
  if (period_final_scores raw cats num_p).isEmpty then 0
  else (period_final_scores raw cats num_p).sum /
    ((period_final_scores raw cats num_p).length : ℚ)

/-- The cell value the dashboards display:
`round(sum(p_avgs)/len(p_avgs), 2) if p_avgs else 0.00`. -/
def year_final_cell (raw : List GradeRecord) (cats : List GradingCategory)
    (num_p : ℕ) : ℚ :=
  if (period_final_scores raw cats num_p).isEmpty then 0
  else roundq2 ((period_final_scores raw cats num_p).sum /
    ((period_final_scores raw cats num_p).length : ℚ))

theorem foldl_calcStepChecked (grades : List GradeRecord)
    (cats : List GradingCategory)
    (acc : List (String × Option ℚ) × ℚ × ℚ) :
    cats.foldl (calcStepChecked grades) (some acc) =
      some (cats.foldl (calcStep grades) acc) := by
  induction cats generalizing acc with
  | nil => rfl
  | cons c cs ih =>
    obtain ⟨d, s, w⟩ := acc
    rw [List.foldl_cons, List.foldl_cons]
    cases h : (catGrades grades c).isEmpty with
    | true =>
      have hs : calcStepChecked grades (some (d, s, w)) c =
          some (calcStep grades (d, s, w) c) := by
        simp [calcStepChecked, calcStep, h]
      rw [hs, ih]
    | false =>
      have hlen : ((catGrades grades c).length : ℚ) ≠ 0 := by
        have : catGrades grades c ≠ [] := by
          intro hc
          rw [hc] at h
          cases h
        have hpos := List.length_pos.mpr this
        positivity
      have hs : calcStepChecked grades (some (d, s, w)) c =
          some (calcStep grades (d, s, w) c) := by
        simp [calcStepChecked, calcStep, h, qdiv, hlen]
      rw [hs, ih]

/-- Homework 40% / Exams 60%, as in the scenarios of spec §8. -/
def exCats : List GradingCategory := [⟨1, "Homework", 40⟩, ⟨2, "Exams", 60⟩]

/-- Grades 8 and 6 in Homework, 9 in Exams (first scenario of spec §8). -/
def exGrades1 : List GradeRecord :=
  [⟨some 8, some 1, 1⟩, ⟨some 6, some 1, 1⟩, ⟨some 9, some 2, 1⟩]

/-- A single grade 8 in Homework (second scenario of spec §8). -/
def exGrades2 : List GradeRecord := [⟨some 8, some 1, 1⟩]

/-- Claim C1: for every non-empty category list whose weights sum to 100 and
where every category has at least one matching non-null grade, the final score
equals the weighted mean of the per-category averages: the sum over categories
of average times weight, divided by 100. -/
theorem claim1_weighted_mean_full_data (grades : List GradeRecord)
    (cats : List GradingCategory) (h1 : cats ≠ [])
    (h2 : (cats.map (fun c => c.weight)).sum = 100)
    (h3 : ∀ c ∈ cats, catGrades grades c ≠ []) :
    (calculate_average_v3 grades cats).1 =
      ((cats.map (fun c => catAvg grades c * c.weight)).sum) / 100 := by
  have hact : activeCats grades cats = cats := by
    rw [activeCats, List.filter_eq_self]
    intro c hc
    cases he : (catGrades grades c).isEmpty with
    | false => simp
    | true => exact absurd (List.isEmpty_iff.mp he) (h3 c hc)
  have hw : activeWeight grades cats = 100 := by
    rw [activeWeight, hact, h2]
  rw [calc_v3_eq grades h1]
  dsimp only
  rw [hw, if_pos (by norm_num : (0:ℚ) < 100), activeScore, hact]

/-- Claim C1 witness: the Homework/Exams scenario, category averages 7.0 and
9.0, final score 8.2. -/
theorem claim1_witness :
    (calculate_average_v3 exGrades1 exCats).1 =
      ((exCats.map (fun c => catAvg exGrades1 c * c.weight)).sum) / 100 ∧
    calculate_average_v3 exGrades1 exCats =
      (41/5, [("Homework", some 7), ("Exams", some 9)]) := by
  constructor
  · exact claim1_weighted_mean_full_data exGrades1 exCats (by decide)
      (by norm_num [exCats]) (by decide)
  · simp [exGrades1, exCats, calculate_average_v3, calcStep, catGrades,
      dictInsert] <;> norm_num

/-- Claim C2: for every non-empty category list, only the categories with at
least one matching non-null grade contribute, the divisor is the sum of only
their weights, and a category all of whose same-named peers (itself included)
lack grades is mapped to the no-data marker. -/
theorem claim2_active_categories_only (grades : List GradeRecord)
    (cats : List GradingCategory) (h1 : cats ≠ []) :
    (0 < activeWeight grades cats →
      (calculate_average_v3 grades cats).1 =
        activeScore grades cats / activeWeight grades cats) ∧
    (∀ c ∈ cats, (∀ c2 ∈ cats, c2.name = c.name → catGrades grades c2 = []) →
      List.lookup c.name (calculate_average_v3 grades cats).2 = some none) := by
  constructor
  · intro hw
    rw [calc_v3_eq grades h1]
    dsimp only
    rw [if_pos hw]
  · intro c hc hall
    rw [calc_v3_eq grades h1]
    dsimp only
    rw [lookup_buildMap]
    cases hln : lastNamed cats c.name with
    | none => exact absurd rfl (lastNamed_eq_none_iff.mp hln c hc)
    | some c2 =>
      obtain ⟨hm, hn⟩ := lastNamed_mem hln
      simp [catValue, hall c2 hm hn]

/-- Claim C2 witness: single grade 8 in Homework, no Exams grades:
Homework 8.0, Exams none, final (8*40)/40 = 8.0. -/
theorem claim2_witness :
    (calculate_average_v3 exGrades2 exCats).1 =
      activeScore exGrades2 exCats / activeWeight exGrades2 exCats ∧
    List.lookup "Exams" (calculate_average_v3 exGrades2 exCats).2 = some none ∧
    calculate_average_v3 exGrades2 exCats =
      (8, [("Homework", some 8), ("Exams", none)]) := by
  refine ⟨(claim2_active_categories_only exGrades2 exCats (by decide)).1 ?_,
    (claim2_active_categories_only exGrades2 exCats (by decide)).2
      ⟨2, "Exams", 60⟩ (by decide) (by decide), ?_⟩
  · simp [activeWeight, activeCats, exGrades2, exCats, catGrades] <;> norm_num
  · simp [exGrades2, exCats, calculate_average_v3, calcStep, catGrades,
      dictInsert] <;> norm_num

/-- Claim C3: with an empty category list the calculator returns the plain
mean of the non-null grades and an empty mapping, and 0.0 when there is no
non-null grade. -/
theorem claim3_empty_categories_fallback (grades : List GradeRecord) :
    (grades.filterMap (fun g => g.grade) = [] →
      calculate_average_v3 grades [] = (0, [])) ∧
    (grades.filterMap (fun g => g.grade) ≠ [] →
      calculate_average_v3 grades [] =
        ((grades.filterMap (fun g => g.grade)).sum /
          ((grades.filterMap (fun g => g.grade)).length : ℚ), [])) := by
  constructor <;> intro h <;>
    simp [calculate_average_v3, h, List.isEmpty_iff]

/-- Claim C3 witness: a null-grade row gives (0, []); rows with grades 5 and a
null give their plain mean 5. -/
theorem claim3_witness :
    calculate_average_v3 [⟨none, some 1, 1⟩] [] = (0, []) ∧
    calculate_average_v3 [⟨some 5, none, 2⟩, ⟨none, some 1, 1⟩] [] =
      ((([⟨some 5, none, 2⟩, ⟨none, some 1, 1⟩] :
          List GradeRecord).filterMap (fun g => g.grade)).sum /
        ((([⟨some 5, none, 2⟩, ⟨none, some 1, 1⟩] :
          List GradeRecord).filterMap (fun g => g.grade)).length : ℚ), []) ∧
    (calculate_average_v3 [⟨some 5, none, 2⟩, ⟨none, some 1, 1⟩] []).1 = 5 := by
  refine ⟨(claim3_empty_categories_fallback [⟨none, some 1, 1⟩]).1 (by decide),
    (claim3_empty_categories_fallback
      [⟨some 5, none, 2⟩, ⟨none, some 1, 1⟩]).2 (by decide),
    by simp [calculate_average_v3] <;> norm_num⟩

/-- Claim C4: when no category of a non-empty list has a matching non-null
grade, the final score is 0.0 and every category name is mapped to the
no-data marker. -/
theorem claim4_no_data_zero (grades : List GradeRecord)
    (cats : List GradingCategory) (h1 : cats ≠ [])
    (h2 : ∀ c ∈ cats, catGrades grades c = []) :
    (calculate_average_v3 grades cats).1 = 0 ∧
    ∀ c ∈ cats,
      List.lookup c.name (calculate_average_v3 grades cats).2 = some none := by
  have hact : activeCats grades cats = [] := by
    rw [activeCats, List.filter_eq_nil_iff]
    intro c hc
    simp [h2 c hc]
  constructor
  · rw [calc_v3_eq grades h1]
    dsimp only
    rw [activeWeight, hact]
    simp
  · intro c hc
    rw [calc_v3_eq grades h1]
    dsimp only
    rw [lookup_buildMap]
    cases hln : lastNamed cats c.name with
    | none => exact absurd rfl (lastNamed_eq_none_iff.mp hln c hc)
    | some c2 =>
      obtain ⟨hm, _⟩ := lastNamed_mem hln
      simp [catValue, h2 c2 hm]

/-- Claim C4 witness: a null grade in Homework and an orphan grade leave both
categories without data: final 0.0, both names mapped to none. -/
theorem claim4_witness :
    (calculate_average_v3 [⟨none, some 1, 1⟩, ⟨some 9, some 7, 2⟩] exCats).1 = 0 ∧
    List.lookup "Homework"
      (calculate_average_v3 [⟨none, some 1, 1⟩, ⟨some 9, some 7, 2⟩] exCats).2 =
        some none ∧
    List.lookup "Exams"
      (calculate_average_v3 [⟨none, some 1, 1⟩, ⟨some 9, some 7, 2⟩] exCats).2 =
        some none := by
  refine ⟨(claim4_no_data_zero _ exCats (by decide) (by decide)).1,
    (claim4_no_data_zero _ exCats (by decide) (by decide)).2
      ⟨1, "Homework", 40⟩ (by decide),
    (claim4_no_data_zero _ exCats (by decide) (by decide)).2
      ⟨2, "Exams", 60⟩ (by decide)⟩

/-- Claim C5 counterexample: with an EMPTY category list, a grade whose
category_id matches no category (vacuously) does change the result — the
fallback plain mean uses it — so the claim as stated, quantified over every
categories list, is false. -/
theorem claim5_counterexample :
    (∀ c ∈ ([] : List GradingCategory),
      (⟨some 5, some 99, 1⟩ : GradeRecord).category_id ≠ some c.id) ∧
    calculate_average_v3 ([] ++ [⟨some 5, some 99, 1⟩]) [] ≠
      calculate_average_v3 [] [] := by
  constructor
  · intro c hc
    cases hc
  · intro h
    have h1 : calculate_average_v3 ([] ++ [⟨some 5, some 99, 1⟩]) [] = (5, []) := by
      simp [calculate_average_v3] <;> norm_num
    have h2 : calculate_average_v3 [] [] = (0, []) := by
      simp [calculate_average_v3]
    rw [h1, h2] at h
    have : (5 : ℚ) = 0 := congrArg Prod.fst h
    norm_num at this

/-- Claim C5 (amended): for every grades list, every NON-EMPTY categories
list, and every orphan record whose category_id matches no category of the
list, appending the orphan changes neither the final score nor the mapping. -/
theorem claim5_orphan_invariant (grades : List GradeRecord)
    (cats : List GradingCategory) (g : GradeRecord) (h1 : cats ≠ [])
    (h2 : ∀ c ∈ cats, g.category_id ≠ some c.id) :
    calculate_average_v3 (grades ++ [g]) cats =
      calculate_average_v3 grades cats := by
  apply calc_v3_congr _ _ h1
  intro c hc
  rw [catGrades_append]
  have hg : catGrades [g] c = [] := by
    simp [catGrades, h2 c hc]
  rw [hg, List.append_nil]

/-- Claim C5 witness: appending an orphan grade (category id 99) to the
one-Homework-grade scenario leaves the output unchanged. -/
theorem claim5_witness :
    calculate_average_v3 (exGrades2 ++ [⟨some 5, some 99, 1⟩]) exCats =
      calculate_average_v3 exGrades2 exCats :=
  claim5_orphan_invariant exGrades2 exCats ⟨some 5, some 99, 1⟩
    (by decide) (by decide)

/-- Claim C6: the year final is the unweighted mean of the per-period finals
with empty periods skipped entirely: when every grade row lies in period 1 and
there is at least one row, the year final over the 2 semester periods equals
period 1's final score (period 2 is skipped, not zero-filled). -/
theorem claim6_year_final_skips_empty_periods (raw : List GradeRecord)
    (cats : List GradingCategory) (h1 : raw ≠ [])
    (h2 : ∀ g ∈ raw, g.period = 1) :
    year_final raw cats 2 = (calculate_average_v3 raw cats).1 := by
  have hf1 : raw.filter (fun g => g.period = ((0 : ℕ) : ℤ) + 1) = raw := by
    rw [List.filter_eq_self]
    intro g hg
    simp [h2 g hg]
  have hf2 : raw.filter (fun g => g.period = ((1 : ℕ) : ℤ) + 1) = [] := by
    rw [List.filter_eq_nil_iff]
    intro g hg
    simp [h2 g hg]
  have hps : period_final_scores raw cats 2 =
      [(calculate_average_v3 raw cats).1] := by
    rw [period_final_scores]
    rw [show List.range 2 = [0, 1] from rfl]
    simp only [List.filterMap_cons, List.filterMap_nil]
    rw [hf1, hf2]
    simp [List.isEmpty_iff, h1]
  rw [year_final, hps]
  simp

/-- Claim C6 witness: one period-1 row with grade 7 and nothing in period 2:
the year final is 7.0 (also after the display rounding), not 3.5. -/
theorem claim6_witness :
    year_final [⟨some 7, none, 1⟩] [] 2 =
      (calculate_average_v3 [⟨some 7, none, 1⟩] []).1 ∧
    (calculate_average_v3 [⟨some 7, none, 1⟩] []).1 = 7 ∧
    year_final_cell [⟨some 7, none, 1⟩] [] 2 = 7 := by
  refine ⟨claim6_year_final_skips_empty_periods _ _ (by decide) (by decide),
    by simp [calculate_average_v3] <;> norm_num, ?_⟩
  have hps : period_final_scores [⟨some 7, none, 1⟩] [] 2 = [7] := by
    rw [period_final_scores, show List.range 2 = [0, 1] from rfl]
    simp [calculate_average_v3] <;> norm_num
  have h7 : roundHalfEven 700 = 700 := by
    have hf : Int.floor ((700 : ℚ)) = 700 := by norm_num
    norm_num [roundHalfEven, hf]
  unfold year_final_cell
  rw [hps]
  norm_num [roundq2, h7]

/-- Claim C7: the calculator is total: the division-checked variant (which
fails on any zero divisor, as Python would raise ZeroDivisionError) always
returns the unchecked result — both divisions sit under guards that make
their divisors non-zero, for every input whatsoever. -/
theorem claim7_total_no_zero_division (grades : List GradeRecord)
    (cats : List GradingCategory) :
    calculate_average_v3_checked grades cats =
      some (calculate_average_v3 grades cats) := by
  unfold calculate_average_v3_checked calculate_average_v3
  cases hc : cats.isEmpty with
  | true =>
    simp only [hc, if_true]
    cases hv : (grades.filterMap fun g => g.grade).isEmpty with
    | true => simp [hv]
    | false =>
      have hne : grades.filterMap (fun g => g.grade) ≠ [] := by
        intro h
        rw [h] at hv
        cases hv
      have hlen : ((grades.filterMap fun g => g.grade).length : ℚ) ≠ 0 := by
        have := List.length_pos.mpr hne
        positivity
      simp [hv, qdiv, hlen]
  | false =>
    simp only [hc, Bool.false_eq_true, if_false]
    rw [foldl_calcStepChecked]
    obtain ⟨d, s, w⟩ := cats.foldl (calcStep grades) ([], 0, 0)
    dsimp only
    by_cases hw : 0 < w
    · rw [if_pos hw, if_pos hw]
      simp [qdiv, ne_of_gt hw]
    · rw [if_neg hw, if_neg hw]

theorem lastNamed_eq_some_iff_of_nodup {cats : List GradingCategory}
    {q : String} {c : GradingCategory}
    (hnd : (cats.map (fun c => c.name)).Nodup) :
    lastNamed cats q = some c ↔ c ∈ cats ∧ c.name = q := by
  constructor
  · exact lastNamed_mem
  · rintro ⟨hm, hn⟩
    induction cats with
    | nil => cases hm
    | cons c0 cs ih =>
      rw [lastNamed]
      rcases List.mem_cons.mp hm with he | hm2
      · subst he
        have hnone : lastNamed cs q = none := by
          rw [lastNamed_eq_none_iff]
          intro c2 hc2 hq2
          have hni : c.name ∉ cs.map (fun c3 => c3.name) :=
            (List.nodup_cons.mp (by simpa using hnd)).1
          exact hni (by
            have : c2.name = c.name := hq2.trans hn.symm
            exact this ▸ List.mem_map_of_mem _ hc2)
        simp [hnone, hn]
      · have hr := ih (List.nodup_cons.mp (by simpa using hnd)).2 hm2
        simp [hr]

theorem lastNamed_perm {cats1 cats2 : List GradingCategory} {q : String}
    (hp : cats1.Perm cats2)
    (hnd : (cats1.map (fun c => c.name)).Nodup) :
    lastNamed cats1 q = lastNamed cats2 q := by
  have hnd2 : (cats2.map (fun c => c.name)).Nodup :=
    ((hp.map (fun c => c.name)).nodup_iff).mp hnd
  cases h1 : lastNamed cats1 q with
  | some c =>
    obtain ⟨hm, hn⟩ := lastNamed_mem h1
    exact ((lastNamed_eq_some_iff_of_nodup hnd2).mpr
      ⟨hp.mem_iff.mp hm, hn⟩).symm
  | none =>
    symm
    rw [lastNamed_eq_none_iff]
    intro c hc
    exact lastNamed_eq_none_iff.mp h1 c (hp.mem_iff.mpr hc)

/-- Two categories sharing the name "A" with different ids and different
averages: a permutation counterexample to mapping equality. -/
def cexCats1 : List GradingCategory := [⟨1, "A", 1⟩, ⟨2, "A", 1⟩]

/-- The same two categories in the other order. -/
def cexCats2 : List GradingCategory := [⟨2, "A", 1⟩, ⟨1, "A", 1⟩]

/-- Grade 1 in category 1 and grade 0 in category 2. -/
def cexGrades : List GradeRecord := [⟨some 1, some 1, 1⟩, ⟨some 0, some 2, 1⟩]

/-- Claim C8 counterexample: the two orders of two same-named categories give
different category_averages mappings (the Python dict keeps only the last
same-named category's average), so the mapping is not permutation-invariant
as claimed. -/
theorem claim8_counterexample :
    cexCats1.Perm cexCats2 ∧
    List.lookup "A" (calculate_average_v3 cexGrades cexCats1).2 ≠
      List.lookup "A" (calculate_average_v3 cexGrades cexCats2).2 := by
  constructor
  · exact List.Perm.swap _ _ _
  · intro h
    have h1 : calculate_average_v3 cexGrades cexCats1 = (1/2, [("A", some 0)]) := by
      simp [cexGrades, cexCats1, calculate_average_v3, calcStep, catGrades,
        dictInsert] <;> norm_num
    have h2 : calculate_average_v3 cexGrades cexCats2 = (1/2, [("A", some 1)]) := by
      simp [cexGrades, cexCats2, calculate_average_v3, calcStep, catGrades,
        dictInsert] <;> norm_num
    rw [h1, h2] at h
    simp [List.lookup] at h

/-- Claim C8 (amended): permuting the category list never changes the final
score; and when the category names are pairwise distinct (always true for the
dict-keyed categories of one subject in practice) the mapping holds the same
name-to-value pairs.  With duplicated names only the duplicated name's entry
may differ, as claim C10 records. -/
theorem claim8_perm_invariant (grades : List GradeRecord)
    (cats1 cats2 : List GradingCategory) (hp : cats1.Perm cats2) :
    (calculate_average_v3 grades cats1).1 =
      (calculate_average_v3 grades cats2).1 ∧
    ((cats1.map (fun c => c.name)).Nodup →
      ∀ n, List.lookup n (calculate_average_v3 grades cats1).2 =
        List.lookup n (calculate_average_v3 grades cats2).2) := by
  by_cases hc : cats1 = []
  · subst hc
    have hc2 : cats2 = [] := hp.symm.eq_nil
    subst hc2
    exact ⟨rfl, fun _ _ => rfl⟩
  · have hc2 : cats2 ≠ [] := by
      intro h
      subst h
      exact hc hp.eq_nil
    constructor
    · rw [calc_v3_eq grades hc, calc_v3_eq grades hc2]
      dsimp only
      have hw : activeWeight grades cats1 = activeWeight grades cats2 := by
        rw [activeWeight, activeWeight, activeCats, activeCats]
        exact ((hp.filter _).map (fun c => c.weight)).sum_eq
      have hs : activeScore grades cats1 = activeScore grades cats2 := by
        rw [activeScore, activeScore, activeCats, activeCats]
        exact ((hp.filter _).map (fun c => catAvg grades c * c.weight)).sum_eq
      rw [hw, hs]
    · intro hnd n
      rw [calc_v3_eq grades hc, calc_v3_eq grades hc2]
      dsimp only
      rw [lookup_buildMap, lookup_buildMap, lastNamed_perm hp hnd]

/-- Claim C8 witness: swapping Homework and Exams keeps final score and the
Homework entry. -/
theorem claim8_witness :
    (calculate_average_v3 exGrades1 exCats).1 =
      (calculate_average_v3 exGrades1
        [⟨2, "Exams", 60⟩, ⟨1, "Homework", 40⟩]).1 ∧
    List.lookup "Homework" (calculate_average_v3 exGrades1 exCats).2 =
      List.lookup "Homework" (calculate_average_v3 exGrades1
        [⟨2, "Exams", 60⟩, ⟨1, "Homework", 40⟩]).2 := by
  have hp : exCats.Perm [⟨2, "Exams", 60⟩, ⟨1, "Homework", 40⟩] :=
    List.Perm.swap _ _ _
  exact ⟨(claim8_perm_invariant exGrades1 _ _ hp).1,
    (claim8_perm_invariant exGrades1 _ _ hp).2 (by decide) "Homework"⟩

/-- Claim C9: if every non-null grade lies in [0, 10] and every weight is
non-negative, the final score lies in [0, 10] and so does every non-none
category average. -/
theorem claim9_bounds_preserved (grades : List GradeRecord)
    (cats : List GradingCategory)
    (hg : ∀ g ∈ grades, ∀ x : ℚ, g.grade = some x → 0 ≤ x ∧ x ≤ 10)
    (hw : ∀ c ∈ cats, 0 ≤ c.weight) :
    (0 ≤ (calculate_average_v3 grades cats).1 ∧
      (calculate_average_v3 grades cats).1 ≤ 10) ∧
    ∀ p ∈ (calculate_average_v3 grades cats).2, ∀ x : ℚ, p.2 = some x →
      0 ≤ x ∧ x ≤ 10 := by
  have hcat : ∀ c : GradingCategory, catGrades grades c ≠ [] →
      0 ≤ catAvg grades c ∧ catAvg grades c ≤ 10 := by
    intro c hne
    apply mean_bounds hne
    intro x hx
    obtain ⟨g, hgm, hgx⟩ := mem_catGrades hx
    exact hg g hgm x hgx
  by_cases hc : cats = []
  · subst hc
    constructor
    · unfold calculate_average_v3
      simp only [List.isEmpty_nil, if_true]
      cases hv : (grades.filterMap fun g => g.grade).isEmpty with
      | true => simp [hv]
      | false =>
        have hne : grades.filterMap (fun g => g.grade) ≠ [] := by
          intro h
          rw [h] at hv
          cases hv
        have hb : ∀ x ∈ grades.filterMap (fun g => g.grade),
            0 ≤ x ∧ x ≤ 10 := by
          intro x hx
          rw [List.mem_filterMap] at hx
          obtain ⟨g, hgm, hgx⟩ := hx
          exact hg g hgm x hgx
        simpa [hv] using mean_bounds hne hb
    · intro p hp x hx
      have : (calculate_average_v3 grades []).2 = [] := by
        unfold calculate_average_v3
        simp
      rw [this] at hp
      cases hp
  · constructor
    · rw [calc_v3_eq grades hc]
      dsimp only
      have hb := weighted_sum_bounds grades (activeCats grades cats)
        (fun c hcm => hw c (List.mem_of_mem_filter hcm))
        (fun c hcm => by
          have hfm := List.mem_filter.mp hcm
          apply hcat c
          intro hnil
          have := hfm.2
          rw [hnil] at this
          simp at this)
      by_cases hwpos : 0 < activeWeight grades cats
      · rw [if_pos hwpos]
        constructor
        · exact div_nonneg (by
            have := hb.1
            rw [activeScore]
            exact this) hwpos.le
        · rw [div_le_iff hwpos]
          calc activeScore grades cats
              ≤ 10 * ((activeCats grades cats).map (fun c => c.weight)).sum := by
                rw [activeScore]
                exact hb.2
            _ = 10 * activeWeight grades cats := by rw [activeWeight]
      · rw [if_neg hwpos]
        norm_num
    · intro p hp x hx
      rw [calc_v3_eq grades hc] at hp
      dsimp only at hp
      rw [buildMap] at hp
      rcases mem_foldl_insert hp with h | ⟨c, _, he⟩
      · cases h
      · rw [he] at hx
        dsimp only at hx
        rw [catValue] at hx
        cases hie : (catGrades grades c).isEmpty with
        | true =>
          rw [hie] at hx
          simp at hx
        | false =>
          rw [hie] at hx
          simp only [Bool.false_eq_true, if_false, Option.some.injEq] at hx
          have hne : catGrades grades c ≠ [] := by
            intro hnil
            rw [hnil] at hie
            cases hie
          exact hx ▸ hcat c hne

/-- Claim C9 witness: the Homework/Exams scenario has all grades in [0, 10]
and non-negative weights, so its final score 8.2 and averages lie in [0, 10]. -/
theorem claim9_witness :
    (0 ≤ (calculate_average_v3 exGrades1 exCats).1 ∧
      (calculate_average_v3 exGrades1 exCats).1 ≤ 10) ∧
    ∀ p ∈ (calculate_average_v3 exGrades1 exCats).2, ∀ x : ℚ, p.2 = some x →
      0 ≤ x ∧ x ≤ 10 :=
  claim9_bounds_preserved exGrades1 exCats
    (by
      intro g hg x hx
      fin_cases hg <;> (cases hx; norm_num))
    (by
      intro c hc
      fin_cases hc <;> norm_num)

/-- Claim C10: two same-named categories (distinct ids), both with data:
the dict keeps a single entry for the name, holding the LAST category's
average, while both categories still contribute average times weight to the
score and weight to the divisor. -/
theorem claim10_duplicate_names (grades : List GradeRecord)
    (c1 c2 : GradingCategory) (hn : c1.name = c2.name)
    (h1 : catGrades grades c1 ≠ []) (h2 : catGrades grades c2 ≠ [])
    (hw : 0 < c1.weight + c2.weight) :
    calculate_average_v3 grades [c1, c2] =
      ((catAvg grades c1 * c1.weight + catAvg grades c2 * c2.weight) /
        (c1.weight + c2.weight),
       [(c1.name, some (catAvg grades c2))]) := by
  have he1 : (catGrades grades c1).isEmpty = false := by
    cases h : (catGrades grades c1).isEmpty with
    | false => rfl
    | true => exact absurd (List.isEmpty_iff.mp h) h1
  have he2 : (catGrades grades c2).isEmpty = false := by
    cases h : (catGrades grades c2).isEmpty with
    | false => rfl
    | true => exact absurd (List.isEmpty_iff.mp h) h2
  rw [calc_v3_eq grades (by simp)]
  have hact : activeCats grades [c1, c2] = [c1, c2] := by
    simp [activeCats, List.filter_cons, he1, he2]
  have hsc : activeScore grades [c1, c2] =
      catAvg grades c1 * c1.weight + catAvg grades c2 * c2.weight := by
    rw [activeScore, hact]
    simp
  have hwt : activeWeight grades [c1, c2] = c1.weight + c2.weight := by
    rw [activeWeight, hact]
    simp
  have hmap : buildMap grades [c1, c2] = [(c1.name, some (catAvg grades c2))] := by
    rw [buildMap]
    simp only [List.foldl_cons, List.foldl_nil]
    rw [show dictInsert [] c1.name (catValue grades c1) =
        [(c1.name, catValue grades c1)] from by simp [dictInsert]]
    rw [dictInsert]
    rw [if_pos (by simp [hn])]
    simp [hn, catValue, he2]
  rw [hsc, hwt, hmap, if_pos hw]

/-- Claim C10 witness: categories A(id 1, 40%) and A(id 2, 60%) with averages
10 and 5: one mapping entry A ↦ 5.0 but final (10*40+5*60)/100 = 7.0. -/
theorem claim10_witness :
    calculate_average_v3 [⟨some 10, some 1, 1⟩, ⟨some 5, some 2, 1⟩]
        [⟨1, "A", 40⟩, ⟨2, "A", 60⟩] =
      ((catAvg [⟨some 10, some 1, 1⟩, ⟨some 5, some 2, 1⟩] ⟨1, "A", 40⟩ *
          (40 : ℚ) +
        catAvg [⟨some 10, some 1, 1⟩, ⟨some 5, some 2, 1⟩] ⟨2, "A", 60⟩ *
          (60 : ℚ)) / ((40 : ℚ) + 60),
       [("A", some (catAvg [⟨some 10, some 1, 1⟩, ⟨some 5, some 2, 1⟩]
          ⟨2, "A", 60⟩))]) ∧
    (calculate_average_v3 [⟨some 10, some 1, 1⟩, ⟨some 5, some 2, 1⟩]
        [⟨1, "A", 40⟩, ⟨2, "A", 60⟩]).1 = 7 ∧
    (calculate_average_v3 [⟨some 10, some 1, 1⟩, ⟨some 5, some 2, 1⟩]
        [⟨1, "A", 40⟩, ⟨2, "A", 60⟩]).2 = [("A", some 5)] := by
  refine ⟨claim10_duplicate_names _ ⟨1, "A", 40⟩ ⟨2, "A", 60⟩ rfl
      (by decide) (by decide) (by norm_num), ?_, ?_⟩ <;>
    simp [calculate_average_v3, calcStep, catGrades, dictInsert] <;> norm_num

